import Mathlib

/-!
Verification of the booking / seat-inventory consistency engine of the
KMRL train scheduler backend.

The development is a shallow embedding of the TypeScript source:

* `ScheduleModel` embeds `backend/src/models/Schedule.ts`
  (`findById`, `updateAvailableSeats`).
* `BookingModel` embeds `backend/src/models/Booking.ts`
  (`create`, `findById`, `updatePaymentStatus`, `cancelBooking`,
  `generateBookingReference`, `generateQRCode`).
* The PostgreSQL database is embedded as an explicit `DB` state:
  each SQL `UPDATE ... WHERE cond` becomes `updateWhere`, each
  `SELECT ... WHERE ... LIMIT`/`rows[0]` becomes `List.find?`, and
  `rowCount` becomes `List.countP`.  JOIN clauses against the
  `users`/`trains`/`stations`/`schedules` tables are embedded by
  requiring the joined row to exist.
* SQL `DECIMAL` money amounts and the JavaScript floating point
  arithmetic on them are embedded as exact rationals; millisecond
  timestamps (`Date.getTime()`, `Date.now()`, `CURRENT_TIMESTAMP`)
  as integers; `uuid_generate_v4()` defaults and `Math.random()`
  are passed in as explicit parameters.
-/

/-- Payment status of a booking, column `payment_status` of table
`bookings` (`pending | paid | failed | refunded`). -/
inductive PaymentStatus where
  | pending
  | paid
  | failed
  | refunded
deriving DecidableEq, Repr

/-- Booking status, column `booking_status` of table `bookings`
(`confirmed | cancelled | completed | no_show`). -/
inductive BookingStatus where
  | confirmed
  | cancelled
  | completed
  | no_show
deriving DecidableEq, Repr

/-- Passenger gender as in the `PassengerDetail` interface. -/
inductive Gender where
  | male
  | female
  | other
deriving DecidableEq, Repr

/-- One passenger record, interface `PassengerDetail` in `Booking.ts`. -/
structure PassengerDetail where
  name : String
  age : Nat
  gender : Gender
  id_type : Option String := none
  id_number : Option String := none
deriving DecidableEq, Repr

/-- A row of the `schedules` table, restricted to the columns the
booking engine reads or writes (interface `Schedule` in `Schedule.ts`;
columns not touched by any verified operation are omitted). -/
structure Schedule where
  id : String
  train_id : String
  departure_station : String
  arrival_station : String
  departure_time : String
  available_seats : Int
  price : ℚ
  updated_at : Int
deriving DecidableEq, Repr

/-- A row of the `bookings` table (interface `Booking` in `Booking.ts`,
without the read-only joined display fields). -/
structure Booking where
  id : String
  user_id : String
  schedule_id : String
  booking_reference : String
  passenger_count : Nat
  passenger_details : List PassengerDetail
  departure_station : String
  arrival_station : String
  journey_date : Int
  departure_time : String
  seat_numbers : List String
  total_amount : ℚ
  payment_status : PaymentStatus
  payment_method : String
  payment_reference : Option String
  booking_status : BookingStatus
  qr_code : Option String
  cancellation_reason : Option String
  refund_amount : Option ℚ
  booked_at : Int
  cancelled_at : Option Int
  created_at : Int
  updated_at : Int
deriving DecidableEq, Repr

/-- The booking request body, interface `BookingRequest` in `Booking.ts`. -/
structure BookingRequest where
  schedule_id : String
  departure_station : String
  arrival_station : String
  journey_date : Int
  passengers : List PassengerDetail
  payment_method : Option String := none
deriving DecidableEq, Repr

/-- The durable database state: the tables the booking engine touches.
The `users`, `trains` and `stations` tables only ever appear in JOIN
clauses, so only their primary keys are kept. -/
structure DB where
  users : List String
  trains : List String
  stations : List String
  schedules : List Schedule
  bookings : List Booking
deriving DecidableEq, Repr

/-- Embedding of `UPDATE t SET ... WHERE cond`: every row satisfying
`q` is replaced by its image under `f`; row order is preserved. -/
def updateWhere (q : α → Bool) (f : α → α) (l : List α) : List α :=
  l.map fun x => if q x then f x else x

/-- Referential integrity of the schema in `database.sql`: foreign keys
of `schedules` and `bookings` resolve, so every JOIN in the source's
SELECT statements succeeds. -/
def DB.WellFormed (db : DB) : Prop :=
  (∀ s ∈ db.schedules,
      s.train_id ∈ db.trains ∧ s.departure_station ∈ db.stations ∧
      s.arrival_station ∈ db.stations) ∧
  (∀ b ∈ db.bookings,
      b.user_id ∈ db.users ∧ b.departure_station ∈ db.stations ∧
      b.arrival_station ∈ db.stations ∧ ∃ s ∈ db.schedules, s.id = b.schedule_id)

instance (db : DB) : Decidable db.WellFormed := by
  unfold DB.WellFormed; infer_instance

namespace ScheduleModel

/-- Row condition of the conditional update in
`ScheduleModel.updateAvailableSeats`
(`WHERE id = $2 AND available_seats + $1 >= 0`). -/
def seatCond (scheduleId : String) (seatChange : Int) (s : Schedule) : Bool :=
  s.id == scheduleId && decide (0 ≤ s.available_seats + seatChange)

/-- Row effect of the conditional update in
`ScheduleModel.updateAvailableSeats`
(`SET available_seats = available_seats + $1, updated_at = CURRENT_TIMESTAMP`). -/
def seatUpd (seatChange now : Int) (s : Schedule) : Schedule :=
  { s with available_seats := s.available_seats + seatChange, updated_at := now }

/-- `ScheduleModel.updateAvailableSeats` (Schedule.ts lines 156-166):
a single conditional `UPDATE` that applies the seat change only to rows
where the result stays non-negative, returning `rowCount > 0`. -/
def updateAvailableSeats (db : DB) (scheduleId : String) (seatChange now : Int) :
    DB × Bool :=
  let q := seatCond scheduleId seatChange
  ({ db with schedules := updateWhere q (seatUpd seatChange now) db.schedules },
   decide (0 < db.schedules.countP q))

/-- `ScheduleModel.findById` (Schedule.ts lines 135-154): SELECT of the
schedule row by id, JOINed against `trains` and both `stations` rows;
`rows[0] || null`. -/
def findById (db : DB) (id : String) : Option Schedule :=
  db.schedules.find? fun s =>
    s.id == id && db.trains.contains s.train_id &&
    db.stations.contains s.departure_station &&
    db.stations.contains s.arrival_station

end ScheduleModel

namespace BookingModel

/-- Hex digit used in the `\u00XX` escapes of `JSON.stringify`. -/
def hexDigit (n : Nat) : Char :=
  "0123456789abcdef".data.getD n '0'

/-- Escaping of one character as performed by `JSON.stringify` on a
string value. -/
def jsonEscapeChar (c : Char) : List Char :=
  if c = '"' then ['\\', '"']
  else if c = '\\' then ['\\', '\\']
  else if c = Char.ofNat 8 then ['\\', 'b']
  else if c = Char.ofNat 9 then ['\\', 't']
  else if c = Char.ofNat 10 then ['\\', 'n']
  else if c = Char.ofNat 12 then ['\\', 'f']
  else if c = Char.ofNat 13 then ['\\', 'r']
  else if c.toNat < 32 then
    ['\\', 'u', '0', '0', hexDigit (c.toNat / 16), hexDigit (c.toNat % 16)]
  else [c]

/-- `JSON.stringify` of a string value: quoted, characters escaped. -/
def jsonStringLit (s : String) : String :=
  "\"" ++ String.mk (s.data.map jsonEscapeChar).flatten ++ "\""

/-- UTF-8 encoding of one character (what `Buffer.from` does per
code point). -/
def utf8EncodeChar (c : Char) : List Nat :=
  let n := c.toNat
  if n < 128 then [n]
  else if n < 2048 then [192 + n / 64, 128 + n % 64]
  else if n < 65536 then [224 + n / 4096, 128 + n / 64 % 64, 128 + n % 64]
  else [240 + n / 262144, 128 + n / 4096 % 64, 128 + n / 64 % 64, 128 + n % 64]

/-- UTF-8 encoding of a character sequence. -/
def utf8Encode (l : List Char) : List Nat :=
  (l.map utf8EncodeChar).flatten

/-- The base64 alphabet. -/
def base64Table : List Char :=
  "ABCDEFGHIJKLMNOPQRSTUVWXYZabcdefghijklmnopqrstuvwxyz0123456789+/".data

/-- One base64 digit. -/
def b64Char (n : Nat) : Char :=
  base64Table.getD n 'A'

/-- Standard padded base64 of a byte sequence
(`Buffer.prototype.toString with encoding base64`). -/
def base64Encode : List Nat → List Char
  | [] => []
  | [b1] => [b64Char (b1 / 4), b64Char (b1 % 4 * 16), '=', '=']
  | [b1, b2] => [b64Char (b1 / 4), b64Char (b1 % 4 * 16 + b2 / 16),
      b64Char (b2 % 16 * 4), '=']
  | b1 :: b2 :: b3 :: rest =>
      b64Char (b1 / 4) :: b64Char (b1 % 4 * 16 + b2 / 16) ::
      b64Char (b2 % 16 * 4 + b3 / 64) :: b64Char (b3 % 64) :: base64Encode rest

/-- The JSON document `JSON.stringify(qrData)` built inside
`BookingModel.generateQRCode` (Booking.ts lines 344-348). -/
def qrJson (bookingId : String) (timestamp : Int) : String :=
  "\x7b\"booking_id\":" ++ jsonStringLit bookingId ++
  ",\"timestamp\":" ++ toString timestamp ++
  ",\"type\":\"KMRL_BOOKING\"\x7d"

/-- `BookingModel.generateQRCode` (Booking.ts lines 341-351): the
base64-encoded JSON payload used as the ticket credential.
`Date.now()` is passed in as `now`. -/
def generateQRCode (bookingId : String) (now : Int) : String :=
  String.mk (base64Encode (utf8Encode (qrJson bookingId now).data))

/-- `BookingModel.generateBookingReference` (Booking.ts lines 334-339):
fixed prefix `KMRL`, the last 8 digits of `Date.now()`, and a random
4-character suffix; the random suffix is passed in as `rand`. -/
def generateBookingReference (now : Int) (rand : String) : String :=
  let ts := toString now
  "KMRL" ++ (ts.drop (ts.length - 8)) ++ rand

/-- Errors thrown by the booking engine (`throw new Error(...)` message
texts, and `storageFailure` for a failing storage statement). -/
inductive BookingError where
  | scheduleNotFound
  | notEnoughSeats
  | seatUpdateFailed
  | bookingNotFound
  | alreadyCancelled
  | cancelUpdateFailed
  | storageFailure
deriving DecidableEq, Repr

/-- Failure injection for the storage statements issued inside the
`createBooking` unit of work; a `true` flag makes that statement throw. -/
structure CreateFailures where
  findScheduleFails : Bool := false
  insertFails : Bool := false
  seatUpdateFails : Bool := false
deriving DecidableEq, Repr

/-- Failure injection for the storage statements issued inside the
`cancelBooking` unit of work; a `true` flag makes that statement throw. -/
structure CancelFailures where
  findBookingFails : Bool := false
  markCancelledFails : Bool := false
  releaseSeatsFails : Bool := false
  refundWriteFails : Bool := false
deriving DecidableEq, Repr

/-- No injected storage failures. -/
def noCreateFailures : CreateFailures := {}

/-- No injected storage failures. -/
def noCancelFailures : CancelFailures := {}

/-- The JavaScript `bookingData.payment_method || 'online'` default
from the INSERT of `BookingModel.create` (an absent or empty payment
method is falsy). -/
def paymentMethodOrOnline : Option String → String
  | some m => if m.isEmpty then "online" else m
  | none => "online"

/-- The booking row INSERTed by `BookingModel.create` (Booking.ts lines
79-99) together with the table defaults of `database.sql`
(`payment_status` pending, `booking_status` confirmed, timestamps
`CURRENT_TIMESTAMP`, generated id passed in as `newId`);
`total_amount = schedule.price * passengers.length` (line 76). -/
def newBookingRow (userId : String) (req : BookingRequest)
    (newId rand : String) (now : Int) (schedule : Schedule) : Booking :=
  { id := newId
    user_id := userId
    schedule_id := req.schedule_id
    booking_reference := generateBookingReference now rand
    passenger_count := req.passengers.length
    passenger_details := req.passengers
    departure_station := req.departure_station
    arrival_station := req.arrival_station
    journey_date := req.journey_date
    departure_time := schedule.departure_time
    seat_numbers := []
    total_amount := schedule.price * (req.passengers.length : ℚ)
    payment_status := .pending
    payment_method := paymentMethodOrOnline req.payment_method
    payment_reference := none
    booking_status := .confirmed
    qr_code := none
    cancellation_reason := none
    refund_amount := none
    booked_at := now
    cancelled_at := none
    created_at := now
    updated_at := now }

/-- The body of the try-block of `BookingModel.create` (Booking.ts
lines 61-116), threading the uncommitted transaction state: look up
the schedule, check availability, INSERT the booking row, then apply
the conditional seat decrement, failing if it reported no update. -/
def createBody (db : DB) (userId : String) (req : BookingRequest)
    (newId rand : String) (now : Int) (fo : CreateFailures) :
    Except BookingError (DB × Booking) :=
  if fo.findScheduleFails then .error .storageFailure
  else
    match ScheduleModel.findById db req.schedule_id with
    | none => .error .scheduleNotFound
    | some schedule =>
      if schedule.available_seats < (req.passengers.length : Int) then
        .error .notEnoughSeats
      else if fo.insertFails then .error .storageFailure
      else
        let booking := newBookingRow userId req newId rand now schedule
        let db1 : DB := { db with bookings := db.bookings ++ [booking] }
        if fo.seatUpdateFails then .error .storageFailure
        else
          let res := ScheduleModel.updateAvailableSeats db1 req.schedule_id
            (-(req.passengers.length : Int)) now
          if res.2 then .ok (res.1, booking) else .error .seatUpdateFailed

/-- Modelled from the spec: the `query` helper of `config/database`
(not under `src/`) gives `BEGIN`/`COMMIT`/`ROLLBACK` the semantics of a
single atomic unit of work, so a throw inside the try-block discards
every uncommitted write.  `BookingModel.create` (Booking.ts lines
58-121) wraps `createBody` in that unit of work: on success the new
state commits, on any error the original state is kept. -/
def create (db : DB) (userId : String) (req : BookingRequest)
    (newId rand : String) (now : Int) (fo : CreateFailures) :
    DB × Except BookingError Booking :=
  match createBody db userId req newId rand now fo with
  | .ok (db1, booking) => (db1, .ok booking)
  | .error e => (db, .error e)

/-- The JOIN clauses of `BookingModel.findById` (Booking.ts lines
144-149): the booking row joins against `users`, its schedule, that
schedule's train, and both station rows. -/
def joinsOk (db : DB) (b : Booking) : Bool :=
  db.users.contains b.user_id &&
  (match db.schedules.find? (fun s => s.id == b.schedule_id) with
   | some s => db.trains.contains s.train_id
   | none => false) &&
  db.stations.contains b.departure_station &&
  db.stations.contains b.arrival_station

/-- `BookingModel.findById` (Booking.ts lines 123-161): SELECT of the
booking row by id, optionally filtered by owner
(`AND b.user_id = $2`), with the JOINs of the source query. -/
def findById (db : DB) (id : String) (userId : Option String) :
    Option Booking :=
  db.bookings.find? fun b =>
    b.id == id &&
    (match userId with
     | some u => b.user_id == u
     | none => true) &&
    joinsOk db b

/-- Row condition of an UPDATE of the `bookings` table keyed by id
alone (`WHERE id = ...`), as issued by the refund write of
`cancelBooking` and by `updatePaymentStatus`. -/
def idMatch (bookingId : String) (b : Booking) : Bool :=
  b.id == bookingId

/-- Row condition of the cancellation UPDATE of
`BookingModel.cancelBooking` (`WHERE id = $1 AND user_id = $3`). -/
def cancelMatch (bookingId userId : String) (b : Booking) : Bool :=
  b.id == bookingId && b.user_id == userId

/-- Row effect of the cancellation UPDATE of `BookingModel.cancelBooking`
(`SET booking_status = 'cancelled', cancellation_reason = $2,
cancelled_at = CURRENT_TIMESTAMP, updated_at = CURRENT_TIMESTAMP`). -/
def cancelMark (reason : Option String) (now : Int) (b : Booking) : Booking :=
  { b with booking_status := .cancelled, cancellation_reason := reason,
           cancelled_at := some now, updated_at := now }

/-- The refund computation inlined in `BookingModel.cancelBooking`
(Booking.ts lines 298-308): hours until the booked journey date decide
a 90% refund (more than 24h ahead), a 50% refund (more than 2h ahead),
or none.  The JavaScript float literals `0.9` and `0.5` are embedded
as the exact rationals they denote. -/
def cancelRefundAmount (journeyMs nowMs : Int) (totalAmount : ℚ) : ℚ :=
  let hoursDifference : ℚ := ((journeyMs - nowMs : Int) : ℚ) / (1000 * 3600)
  if 24 < hoursDifference then totalAmount * (9 / 10)
  else if 2 < hoursDifference then totalAmount * (1 / 2)
  else 0

/-- Row effect of the refund UPDATE of `BookingModel.cancelBooking`
(`UPDATE bookings SET refund_amount = $1 WHERE id = $2`). -/
def refundMark (amount : ℚ) (b : Booking) : Booking :=
  { b with refund_amount := some amount }

/-- The body of the try-block of `BookingModel.cancelBooking`
(Booking.ts lines 266-318): find the booking (owner-filtered), reject
a double cancel, UPDATE the row to cancelled, release the held seats
(the source ignores the return value of that release), then write the
refund amount only when it is positive. -/
def cancelBody (db : DB) (bookingId userId : String) (reason : Option String)
    (now : Int) (fo : CancelFailures) : Except BookingError DB :=
  if fo.findBookingFails then .error .storageFailure
  else
    match findById db bookingId (some userId) with
    | none => .error .bookingNotFound
    | some booking =>
      if booking.booking_status = .cancelled then .error .alreadyCancelled
      else if fo.markCancelledFails then .error .storageFailure
      else
        let rowCount := db.bookings.countP (cancelMatch bookingId userId)
        let marked := updateWhere (cancelMatch bookingId userId) (cancelMark reason now) db.bookings
        let db1 : DB := { db with bookings := marked }
        if rowCount = 0 then .error .cancelUpdateFailed
        else if fo.releaseSeatsFails then .error .storageFailure
        else
          let db2 := (ScheduleModel.updateAvailableSeats db1 booking.schedule_id
            (booking.passenger_count : Int) now).1
          if fo.refundWriteFails then .error .storageFailure
          else
            let refundAmount := cancelRefundAmount booking.journey_date now booking.total_amount
            if 0 < refundAmount then
              let refunded := updateWhere (idMatch bookingId) (refundMark refundAmount) db2.bookings
              .ok { db2 with bookings := refunded }
            else .ok db2

/-- Modelled from the spec: as for `create`, the transaction semantics
of the missing `config/database` module make the try-block atomic.
`BookingModel.cancelBooking` (Booking.ts lines 263-323) wraps
`cancelBody` in that unit of work and resolves to `true` on commit. -/
def cancelBooking (db : DB) (bookingId userId : String) (reason : Option String)
    (now : Int) (fo : CancelFailures) : DB × Except BookingError Bool :=
  match cancelBody db bookingId userId reason now fo with
  | .ok db1 => (db1, .ok true)
  | .error e => (db, .error e)

/-- Row effect of the UPDATE of `BookingModel.updatePaymentStatus`:
always sets `payment_status` and `updated_at`; sets `payment_reference`
only when a (truthy, i.e. non-empty) reference argument was supplied;
sets `qr_code` to a fresh credential only when the new status is
`paid`. -/
def payUpd (bookingId : String) (paymentStatus : PaymentStatus)
    (paymentReference : Option String) (now : Int) (b : Booking) : Booking :=
  let b1 := { b with payment_status := paymentStatus, updated_at := now }
  let b2 := match paymentReference with
    | some r => if r.isEmpty then b1 else { b1 with payment_reference := some r }
    | none => b1
  if paymentStatus = .paid then
    { b2 with qr_code := some (generateQRCode bookingId now) }
  else b2

/-- `BookingModel.updatePaymentStatus` (Booking.ts lines 235-261): a
single UPDATE of the booking row by id, returning `rowCount > 0`. -/
def updatePaymentStatus (db : DB) (bookingId : String)
    (paymentStatus : PaymentStatus) (paymentReference : Option String)
    (now : Int) : DB × Bool :=
  let updated := updateWhere (idMatch bookingId)
    (payUpd bookingId paymentStatus paymentReference now) db.bookings
  ({ db with bookings := updated },
   decide (0 < db.bookings.countP (idMatch bookingId)))

/-- The committed database state of a successful `create`: the new
booking row appended and the conditional seat decrement applied. -/
def createResult (db : DB) (userId : String) (req : BookingRequest)
    (newId rand : String) (now : Int) (schedule : Schedule) : DB :=
  DB.mk db.users db.trains db.stations
    (updateWhere (ScheduleModel.seatCond req.schedule_id (-(req.passengers.length : Int)))
      (ScheduleModel.seatUpd (-(req.passengers.length : Int)) now) db.schedules)
    (db.bookings ++ [newBookingRow userId req newId rand now schedule])

/-- The committed database state of a successful `cancelBooking` of the
row `booking`: the row marked cancelled, the seats released, and the
refund written when (and only when) it is positive. -/
def cancelResult (db : DB) (bookingId userId : String) (reason : Option String)
    (now : Int) (booking : Booking) : DB :=
  let marked := updateWhere (cancelMatch bookingId userId) (cancelMark reason now) db.bookings
  let refundAmount := cancelRefundAmount booking.journey_date now booking.total_amount
  let bks := if 0 < refundAmount
    then updateWhere (idMatch bookingId) (refundMark refundAmount) marked
    else marked
  DB.mk db.users db.trains db.stations
    (updateWhere (ScheduleModel.seatCond booking.schedule_id (booking.passenger_count : Int))
      (ScheduleModel.seatUpd (booking.passenger_count : Int) now) db.schedules)
    bks

end BookingModel

/-!
Interleaving model for concurrent one-seat `createBooking` requests
against a single departure.  Each request performs, in its own
transaction, the two storage accesses of `BookingModel.create` that
touch the shared seat counter: first the availability read-and-check
(`schedule.available_seats < bookingData.passengers.length`, Booking.ts
line 71), later the conditional decrement
(`ScheduleModel.updateAvailableSeats(id, -1)`, Booking.ts lines
102-109).  Under READ COMMITTED the two accesses of different requests
may interleave arbitrarily; a request whose conditional decrement
matches no row throws `Failed to update available seats` and rolls
back.  Request-local bookkeeping (booking row insert and rollback) does
not touch the shared counter and is elided.
-/

/-- Progress of one concurrent one-seat `createBooking` request:
not yet started, past the availability check, or finished with the
outcome of the source's three exit paths (committed booking,
`Not enough seats available`, `Failed to update available seats`). -/
inductive ReqPhase where
  | pending
  | checked
  | success
  | insufficientSeats
  | updateFailed
deriving DecidableEq, Repr

/-- Shared state of the interleaving model: the departure's remaining
seat counter and the phase of each request. -/
structure ConcState where
  seats : Int
  reqs : List ReqPhase
deriving DecidableEq, Repr

/-- The effect on the seat counter of `updateAvailableSeats(id, -1)`:
decrement only if the result stays non-negative, report success
(`rowCount > 0`). -/
def condDecrement (seats : Int) : Int × Bool :=
  if 0 ≤ seats - 1 then (seats - 1, true) else (seats, false)

/-- One scheduler step: request `i` performs its next storage access.
A `pending` request runs the availability check against the current
committed counter; a `checked` request runs the conditional decrement
and commits or rolls back.  Finished requests and out-of-range indices
do nothing. -/
def concStep (st : ConcState) (i : Nat) : ConcState :=
  match st.reqs[i]? with
  | some ReqPhase.pending =>
      if st.seats < 1 then { st with reqs := st.reqs.set i .insufficientSeats }
      else { st with reqs := st.reqs.set i .checked }
  | some ReqPhase.checked =>
      let r := condDecrement st.seats
      if r.2 then { seats := r.1, reqs := st.reqs.set i .success }
      else { seats := r.1, reqs := st.reqs.set i .updateFailed }
  | _ => st

/-- Execution of a whole interleaving, given as the sequence of request
indices chosen by the scheduler. -/
def concRun (st : ConcState) (events : List Nat) : ConcState :=
  events.foldl concStep st

/-- Number of requests that committed a booking. -/
def nSuccess (l : List ReqPhase) : Nat :=
  l.countP fun p => p == ReqPhase.success

/-- Number of requests rejected by the availability check
(`Not enough seats available`). -/
def nInsufficient (l : List ReqPhase) : Nat :=
  l.countP fun p => p == ReqPhase.insufficientSeats

/-- Number of requests whose conditional decrement matched no row
(`Failed to update available seats`). -/
def nUpdateFailed (l : List ReqPhase) : Nat :=
  l.countP fun p => p == ReqPhase.updateFailed

/-- Every request has finished (no schedule events remain useful). -/
def AllFinished (l : List ReqPhase) : Prop :=
  ∀ p ∈ l, p = ReqPhase.success ∨ p = ReqPhase.insufficientSeats ∨
    p = ReqPhase.updateFailed

instance (l : List ReqPhase) : Decidable (AllFinished l) := by
  unfold AllFinished; infer_instance

/-- Inductive invariant of the interleaving model started with `N`
seats: the counter equals `N` minus the committed bookings, stays
non-negative, and once any request has been rejected all `N` seats
were already committed. -/
def ConcInv (N : Nat) (st : ConcState) : Prop :=
  st.seats = (N : Int) - (nSuccess st.reqs : Int) ∧ 0 ≤ st.seats ∧
  (nInsufficient st.reqs + nUpdateFailed st.reqs ≠ 0 → nSuccess st.reqs = N)

/-!
Concrete sample data used by witnesses and counterexamples.
-/

/-- A sample schedule row: 2 remaining seats, price 100. -/
def sampleSchedule : Schedule :=
  { id := "sch1", train_id := "t1", departure_station := "s1",
    arrival_station := "s2", departure_time := "08:00",
    available_seats := 2, price := 100, updated_at := 0 }

/-- A sample passenger. -/
def samplePassenger : PassengerDetail :=
  { name := "Asha", age := 30, gender := Gender.female }

/-- A sample booking request for one passenger on `sampleSchedule`;
the journey date is far in the future of the sample clock. -/
def sampleRequest : BookingRequest :=
  { schedule_id := "sch1", departure_station := "s1",
    arrival_station := "s2", journey_date := 200000000,
    passengers := [samplePassenger] }

/-- A sample database: one user, one train, two stations, one schedule,
no bookings yet. -/
def sampleDB : DB :=
  { users := ["u1"], trains := ["t1"], stations := ["s1", "s2"],
    schedules := [sampleSchedule], bookings := [] }

/-- A sample booking row as persisted by `create` for one passenger. -/
def sampleBooking : Booking :=
  { id := "b1", user_id := "u1", schedule_id := "sch1",
    booking_reference := "KMRL1000ABCD", passenger_count := 1,
    passenger_details := [samplePassenger], departure_station := "s1",
    arrival_station := "s2", journey_date := 200000000,
    departure_time := "08:00", seat_numbers := [], total_amount := 100,
    payment_status := PaymentStatus.pending, payment_method := "online",
    payment_reference := none, booking_status := BookingStatus.confirmed,
    qr_code := none, cancellation_reason := none, refund_amount := none,
    booked_at := 1000, cancelled_at := none, created_at := 1000,
    updated_at := 1000 }

/-- The sample database with `sampleBooking` persisted and the seat
taken. -/
def sampleDB1 : DB :=
  { sampleDB with
      schedules := [{ sampleSchedule with available_seats := 1, updated_at := 1000 }],
      bookings := [sampleBooking] }

/-- A database whose booking is already `refunded`, for exercising
payment-status transitions. -/
def refundedDB : DB :=
  { sampleDB1 with
      bookings := [{ sampleBooking with payment_status := PaymentStatus.refunded }] }

/-- A database whose booking departs only one hour after the sample
clock `lateNow`, so the cancellation refund computes to 0. -/
def lateDB : DB := sampleDB1

/-- A clock one hour before the sample booking's journey date. -/
def lateNow : Int := 200000000 - 3600000

/-!
General lemmas about the SQL-shaped list operations.
-/

/-- A `find?` over an `UPDATE`d table whose row effect does not change
the columns the predicate reads returns the (possibly updated) first
match of the original table. -/
theorem find?_updateWhere {α : Type} (P q : α → Bool) (f : α → α) (l : List α)
    (hP : ∀ x, P (f x) = P x) :
    (updateWhere q f l).find? P
      = (l.find? P).map (fun x => if q x then f x else x) := by
  induction l with
  | nil => rfl
  | cons x xs ih =>
    show List.find? P ((if q x then f x else x) :: updateWhere q f xs) = _
    by_cases hq : q x = true
    · rw [if_pos hq]
      by_cases hPx : P x = true
      · rw [List.find?_cons_of_pos _ (by rw [hP x]; exact hPx),
            List.find?_cons_of_pos _ hPx]
        simp [hq]
      · rw [List.find?_cons_of_neg _ (by rw [hP x]; simpa using hPx),
            List.find?_cons_of_neg _ (by simpa using hPx)]
        exact ih
    · rw [if_neg hq]
      by_cases hPx : P x = true
      · rw [List.find?_cons_of_pos _ hPx, List.find?_cons_of_pos _ hPx]
        simp [hq]
      · rw [List.find?_cons_of_neg _ (by simpa using hPx),
            List.find?_cons_of_neg _ (by simpa using hPx)]
        exact ih

/-- An `UPDATE` matching no row leaves the table unchanged. -/
theorem updateWhere_eq_self {α : Type} (q : α → Bool) (f : α → α) (l : List α)
    (h : ∀ x ∈ l, ¬ q x = true) : updateWhere q f l = l := by
  unfold updateWhere
  rw [List.map_congr_left (fun x hx => if_neg (h x hx))]
  simp

/-- Two predicates that agree pointwise find the same row. -/
theorem find?_ext {α : Type} (p q : α → Bool) (l : List α)
    (h : ∀ x, p x = q x) : l.find? p = l.find? q := by
  rw [funext h]

/-- Pointwise description of an `UPDATE`: the table after `updateWhere`
relates row-by-row to the table before. -/
theorem forall₂_updateWhere {α : Type} (R : α → α → Prop) (q : α → Bool)
    (f : α → α) (l : List α) (h : ∀ x ∈ l, R x (if q x then f x else x)) :
    List.Forall₂ R l (updateWhere q f l) := by
  unfold updateWhere
  rw [List.forall₂_map_right_iff]
  exact List.forall₂_same.mpr h

/-- Replacing one element moves `countP` by the difference of the old
and new element's contribution. -/
theorem countP_set_eq {α : Type} (l : List α) (i : Nat) (a b : α)
    (p : α → Bool) (hb : l[i]? = some b) :
    (l.set i a).countP p + (if p b then 1 else 0)
      = l.countP p + (if p a then 1 else 0) := by
  induction l generalizing i with
  | nil => simp at hb
  | cons x xs ih =>
    cases i with
    | zero =>
      have hxb : x = b := by simpa using hb
      show (a :: xs).countP p + _ = (x :: xs).countP p + _
      rw [hxb]
      simp only [List.countP_cons]
      split_ifs <;> omega
    | succ n =>
      have hb2 : xs[n]? = some b := by simpa using hb
      have hrec := ih n hb2
      show (x :: xs.set n a).countP p + _ = (x :: xs).countP p + _
      simp only [List.countP_cons]
      split_ifs at hrec ⊢ <;> omega

/-- Rows surviving the conditional seat update are non-negative
whenever they were before: a row is touched only when the result of
the change stays non-negative. -/
theorem seatUpdate_nonneg (sid : String) (delta now : Int) (l : List Schedule)
    (h : ∀ s ∈ l, 0 ≤ s.available_seats) :
    ∀ s ∈ updateWhere (ScheduleModel.seatCond sid delta)
        (ScheduleModel.seatUpd delta now) l, 0 ≤ s.available_seats := by
  intro s hs
  rcases List.mem_map.mp hs with ⟨x, hx, rfl⟩
  by_cases hq : ScheduleModel.seatCond sid delta x = true
  · rw [if_pos hq]
    have h2 : 0 ≤ x.available_seats + delta := by
      simp [ScheduleModel.seatCond] at hq
      exact hq.2
    simpa [ScheduleModel.seatUpd] using h2
  · rw [if_neg hq]
    exact h x hx

/-- The JOIN checks of a booking are insensitive to the conditional
seat update (which changes neither schedule ids nor train ids) and to
the content of the bookings table. -/
theorem joinsOk_seatUpdate (us tr st : List String) (sch : List Schedule)
    (bks bks0 : List Booking) (sid : String) (delta now : Int) (b : Booking) :
    BookingModel.joinsOk
      (DB.mk us tr st (updateWhere (ScheduleModel.seatCond sid delta)
        (ScheduleModel.seatUpd delta now) sch) bks) b
      = BookingModel.joinsOk (DB.mk us tr st sch bks0) b := by
  unfold BookingModel.joinsOk
  dsimp only
  rw [find?_updateWhere (fun s => s.id == b.schedule_id)
    (ScheduleModel.seatCond sid delta) (ScheduleModel.seatUpd delta now) sch
    (fun x => rfl)]
  cases hf : sch.find? (fun s => s.id == b.schedule_id) with
  | none => simp [hf]
  | some s =>
    by_cases hc : ScheduleModel.seatCond sid delta s = true
    · simp [hf, hc, ScheduleModel.seatUpd]
    · simp [hf, hc]

/-- The JOIN checks only read the reference tables and the schedules,
never the bookings table. -/
theorem joinsOk_bookings_irrelevant (db : DB) (bks : List Booking) (b : Booking) :
    BookingModel.joinsOk { db with bookings := bks } b
      = BookingModel.joinsOk db b := rfl

/-!
Characterization of the success paths of the two units of work.
-/

/-- A schedule returned by `ScheduleModel.findById` has the looked-up
id and is a member of the table. -/
theorem scheduleFindById_props (db : DB) (sid : String) (s : Schedule)
    (hs : ScheduleModel.findById db sid = some s) :
    s ∈ db.schedules ∧ s.id = sid := by
  refine ⟨List.mem_of_find?_eq_some hs, ?_⟩
  have hpred := List.find?_some hs
  simp at hpred
  exact hpred.1.1.1

/-- A booking returned by the owner-filtered `BookingModel.findById`
has the looked-up id and owner and is a member of the table. -/
theorem bookingFindById_props (db : DB) (bid uid : String) (b : Booking)
    (hfind : BookingModel.findById db bid (some uid) = some b) :
    b ∈ db.bookings ∧ b.id = bid ∧ b.user_id = uid := by
  refine ⟨List.mem_of_find?_eq_some hfind, ?_, ?_⟩
  · have hpred := List.find?_some hfind
    simp at hpred
    exact hpred.1.1
  · have hpred := List.find?_some hfind
    simp at hpred
    exact hpred.1.2

/-- When the availability check of `create` passes, the whole unit of
work commits: the result is exactly `createResult` and the returned
row is `newBookingRow`. -/
theorem createBody_ok_eq (db : DB) (u : String) (req : BookingRequest)
    (nid rnd : String) (now : Int) (schedule : Schedule)
    (hs : ScheduleModel.findById db req.schedule_id = some schedule)
    (hge : ¬ schedule.available_seats < (req.passengers.length : Int)) :
    BookingModel.createBody db u req nid rnd now BookingModel.noCreateFailures
      = Except.ok (BookingModel.createResult db u req nid rnd now schedule,
          BookingModel.newBookingRow u req nid rnd now schedule) := by
  obtain ⟨hmem, hid⟩ := scheduleFindById_props db req.schedule_id schedule hs
  have hcond : ScheduleModel.seatCond req.schedule_id
      (-(req.passengers.length : Int)) schedule = true := by
    simp [ScheduleModel.seatCond, hid]
    omega
  have hcount : 0 < db.schedules.countP
      (ScheduleModel.seatCond req.schedule_id (-(req.passengers.length : Int))) :=
    List.countP_pos_iff.mpr ⟨schedule, hmem, hcond⟩
  unfold BookingModel.createBody
  simp only [BookingModel.noCreateFailures, Bool.false_eq_true, if_false, hs,
    if_neg hge]
  have hflag : (ScheduleModel.updateAvailableSeats
      { db with bookings := db.bookings ++
          [BookingModel.newBookingRow u req nid rnd now schedule] }
      req.schedule_id (-(req.passengers.length : Int)) now).2 = true := by
    simpa [ScheduleModel.updateAvailableSeats] using hcount
  simp only [hflag, if_true]
  rfl

/-- When the lookup and double-cancel checks of `cancelBooking` pass,
the whole unit of work commits and the result is exactly
`cancelResult`. -/
theorem cancelBody_ok_eq (db : DB) (bid uid : String) (reason : Option String)
    (now : Int) (b : Booking)
    (hfind : BookingModel.findById db bid (some uid) = some b)
    (hnc : ¬ b.booking_status = BookingStatus.cancelled) :
    BookingModel.cancelBody db bid uid reason now BookingModel.noCancelFailures
      = Except.ok (BookingModel.cancelResult db bid uid reason now b) := by
  obtain ⟨hmem, hbid, huid⟩ := bookingFindById_props db bid uid b hfind
  have hmatch : BookingModel.cancelMatch bid uid b = true := by
    simp [BookingModel.cancelMatch, hbid, huid]
  have hcount : db.bookings.countP (BookingModel.cancelMatch bid uid) ≠ 0 := by
    have : 0 < db.bookings.countP (BookingModel.cancelMatch bid uid) :=
      List.countP_pos_iff.mpr ⟨b, hmem, hmatch⟩
    omega
  unfold BookingModel.cancelBody
  simp only [BookingModel.noCancelFailures, Bool.false_eq_true, if_false, hfind,
    if_neg hnc, if_neg hcount]
  unfold BookingModel.cancelResult
  by_cases hr : 0 < BookingModel.cancelRefundAmount b.journey_date now b.total_amount
  · simp only [if_pos hr]
    rfl
  · simp only [if_neg hr]
    rfl

/-- Corollary of `createBody_ok_eq` at the unit-of-work level. -/
theorem create_ok_eq (db : DB) (u : String) (req : BookingRequest)
    (nid rnd : String) (now : Int) (schedule : Schedule)
    (hs : ScheduleModel.findById db req.schedule_id = some schedule)
    (hge : ¬ schedule.available_seats < (req.passengers.length : Int)) :
    BookingModel.create db u req nid rnd now BookingModel.noCreateFailures
      = (BookingModel.createResult db u req nid rnd now schedule,
         Except.ok (BookingModel.newBookingRow u req nid rnd now schedule)) := by
  unfold BookingModel.create
  rw [createBody_ok_eq db u req nid rnd now schedule hs hge]

/-- Corollary of `cancelBody_ok_eq` at the unit-of-work level. -/
theorem cancelBooking_ok_eq (db : DB) (bid uid : String) (reason : Option String)
    (now : Int) (b : Booking)
    (hfind : BookingModel.findById db bid (some uid) = some b)
    (hnc : ¬ b.booking_status = BookingStatus.cancelled) :
    BookingModel.cancelBooking db bid uid reason now BookingModel.noCancelFailures
      = (BookingModel.cancelResult db bid uid reason now b, Except.ok true) := by
  unfold BookingModel.cancelBooking
  rw [cancelBody_ok_eq db bid uid reason now b hfind hnc]

/-- Looking up a schedule id after the conditional seat update returns
the first matching row with the change applied, provided the change
kept that row non-negative. -/
theorem find?_schedule_after_update (sch : List Schedule) (sid : String)
    (delta now : Int) (s : Schedule)
    (hs : sch.find? (fun x => x.id == sid) = some s)
    (hc : 0 ≤ s.available_seats + delta) :
    (updateWhere (ScheduleModel.seatCond sid delta)
        (ScheduleModel.seatUpd delta now) sch).find? (fun x => x.id == sid)
      = some (ScheduleModel.seatUpd delta now s) := by
  have hid : (s.id == sid) = true := by simpa using List.find?_some hs
  rw [find?_updateWhere (fun x => x.id == sid) (ScheduleModel.seatCond sid delta)
    (ScheduleModel.seatUpd delta now) sch (fun x => rfl), hs]
  have hid2 : s.id = sid := by simpa using hid
  simp [ScheduleModel.seatCond, hid2, hc]

/-- The owner-filtered booking lookup after a committed cancellation
returns the cancelled row (with the refund written exactly when it was
positive). -/
theorem findById_cancelResult (db : DB) (bid uid : String)
    (reason : Option String) (now : Int) (b : Booking)
    (hfind : BookingModel.findById db bid (some uid) = some b) :
    BookingModel.findById (BookingModel.cancelResult db bid uid reason now b)
        bid (some uid)
      = some (if 0 < BookingModel.cancelRefundAmount b.journey_date now b.total_amount
          then BookingModel.refundMark
            (BookingModel.cancelRefundAmount b.journey_date now b.total_amount)
            (BookingModel.cancelMark reason now b)
          else BookingModel.cancelMark reason now b) := by
  obtain ⟨hmem, hbid, huid⟩ := bookingFindById_props db bid uid b hfind
  have hmatch : BookingModel.cancelMatch bid uid b = true := by
    simp [BookingModel.cancelMatch, hbid, huid]
  have hidm : BookingModel.idMatch bid (BookingModel.cancelMark reason now b) = true := by
    simp [BookingModel.idMatch, BookingModel.cancelMark, hbid]
  have hJ : ∀ x : Booking,
      BookingModel.joinsOk (BookingModel.cancelResult db bid uid reason now b) x
        = BookingModel.joinsOk db x := fun x =>
    joinsOk_seatUpdate db.users db.trains db.stations db.schedules _ db.bookings
      b.schedule_id (b.passenger_count : Int) now x
  unfold BookingModel.findById at hfind ⊢
  dsimp only at hfind ⊢
  rw [find?_ext _ (fun x : Booking => x.id == bid && (x.user_id == uid) &&
        BookingModel.joinsOk db x) _ (fun x => by rw [hJ x])]
  by_cases hr : 0 < BookingModel.cancelRefundAmount b.journey_date now b.total_amount
  · have hb2 : (BookingModel.cancelResult db bid uid reason now b).bookings
        = updateWhere (BookingModel.idMatch bid)
            (BookingModel.refundMark
              (BookingModel.cancelRefundAmount b.journey_date now b.total_amount))
            (updateWhere (BookingModel.cancelMatch bid uid)
              (BookingModel.cancelMark reason now) db.bookings) := by
      simp [BookingModel.cancelResult, hr]
    rw [hb2]
    rw [find?_updateWhere (fun x : Booking => x.id == bid && (x.user_id == uid) &&
          BookingModel.joinsOk db x) (BookingModel.idMatch bid)
        (BookingModel.refundMark
          (BookingModel.cancelRefundAmount b.journey_date now b.total_amount)) _
        (fun x => rfl)]
    rw [find?_updateWhere (fun x : Booking => x.id == bid && (x.user_id == uid) &&
          BookingModel.joinsOk db x) (BookingModel.cancelMatch bid uid)
        (BookingModel.cancelMark reason now) db.bookings (fun x => rfl)]
    rw [hfind]
    simp [hmatch, hidm, hr]
  · have hb2 : (BookingModel.cancelResult db bid uid reason now b).bookings
        = updateWhere (BookingModel.cancelMatch bid uid)
            (BookingModel.cancelMark reason now) db.bookings := by
      simp [BookingModel.cancelResult, hr]
    rw [hb2]
    rw [find?_updateWhere (fun x : Booking => x.id == bid && (x.user_id == uid) &&
          BookingModel.joinsOk db x) (BookingModel.cancelMatch bid uid)
        (BookingModel.cancelMark reason now) db.bookings (fun x => rfl)]
    rw [hfind]
    simp [hmatch, hr]

/-!
Further supporting lemmas: lookups under referential integrity, the
schedules component of committed units of work, credential
non-emptiness, and the interleaving invariant.
-/

/-- Predicates agreeing on the members of a table find the same row. -/
theorem find?_congr_mem {α : Type} (p q : α → Bool) (l : List α)
    (h : ∀ x ∈ l, p x = q x) : l.find? p = l.find? q := by
  induction l with
  | nil => rfl
  | cons x xs ih =>
    have hx := h x (List.mem_cons_self x xs)
    by_cases hp : p x = true
    · rw [List.find?_cons_of_pos _ hp, List.find?_cons_of_pos _ (hx ▸ hp)]
    · rw [List.find?_cons_of_neg _ (by simpa using hp),
          List.find?_cons_of_neg _ (by simpa [← hx] using hp)]
      exact ih fun y hy => h y (List.mem_cons_of_mem x hy)

/-- Under referential integrity the JOINs of `ScheduleModel.findById`
always succeed, so the lookup is a plain search by id. -/
theorem scheduleFindById_eq_find (db : DB) (sid : String) (hwf : db.WellFormed) :
    ScheduleModel.findById db sid = db.schedules.find? (fun x => x.id == sid) := by
  unfold ScheduleModel.findById
  apply find?_congr_mem
  intro x hx
  obtain ⟨h1, h2, h3⟩ := hwf.1 x hx
  simp [h1, h2, h3]

/-- A committed `createBody` changed the schedules exactly by the
conditional seat decrement. -/
theorem createBody_ok_schedules (db : DB) (u : String) (req : BookingRequest)
    (nid rnd : String) (now : Int) (fo : BookingModel.CreateFailures)
    (db1 : DB) (bk : Booking)
    (h : BookingModel.createBody db u req nid rnd now fo = Except.ok (db1, bk)) :
    db1.schedules = updateWhere
      (ScheduleModel.seatCond req.schedule_id (-(req.passengers.length : Int)))
      (ScheduleModel.seatUpd (-(req.passengers.length : Int)) now) db.schedules := by
  unfold BookingModel.createBody at h
  by_cases h1 : fo.findScheduleFails = true
  · rw [if_pos h1] at h
    exact absurd h (by simp)
  · rw [if_neg h1] at h
    cases hsched : ScheduleModel.findById db req.schedule_id with
    | none =>
      simp only [hsched] at h
      exact absurd h (by simp)
    | some schedule =>
      simp only [hsched] at h
      by_cases h2 : schedule.available_seats < (req.passengers.length : Int)
      · rw [if_pos h2] at h
        exact absurd h (by simp)
      · rw [if_neg h2] at h
        by_cases h3 : fo.insertFails = true
        · rw [if_pos h3] at h
          exact absurd h (by simp)
        · rw [if_neg h3] at h
          by_cases h4 : fo.seatUpdateFails = true
          · rw [if_pos h4] at h
            exact absurd h (by simp)
          · rw [if_neg h4] at h
            by_cases h5 : (ScheduleModel.updateAvailableSeats
                { db with bookings := db.bookings ++
                    [BookingModel.newBookingRow u req nid rnd now schedule] }
                req.schedule_id (-(req.passengers.length : Int)) now).2 = true
            · rw [if_pos h5] at h
              have hdb : (ScheduleModel.updateAvailableSeats
                  { db with bookings := db.bookings ++
                      [BookingModel.newBookingRow u req nid rnd now schedule] }
                  req.schedule_id (-(req.passengers.length : Int)) now).1 = db1 := by
                have := h
                simp at this
                exact this.1
              rw [← hdb]
              rfl
            · rw [if_neg h5] at h
              exact absurd h (by simp)

/-- A committed `cancelBody` changed the schedules exactly by one
conditional seat update. -/
theorem cancelBody_ok_schedules (db : DB) (bid uid : String)
    (reason : Option String) (now : Int) (fo : BookingModel.CancelFailures)
    (db1 : DB)
    (h : BookingModel.cancelBody db bid uid reason now fo = Except.ok db1) :
    ∃ sid2 delta2, db1.schedules = updateWhere (ScheduleModel.seatCond sid2 delta2)
      (ScheduleModel.seatUpd delta2 now) db.schedules := by
  unfold BookingModel.cancelBody at h
  by_cases h1 : fo.findBookingFails = true
  · rw [if_pos h1] at h
    exact absurd h (by simp)
  · rw [if_neg h1] at h
    cases hfind : BookingModel.findById db bid (some uid) with
    | none =>
      simp only [hfind] at h
      exact absurd h (by simp)
    | some booking =>
      simp only [hfind] at h
      by_cases h2 : booking.booking_status = BookingStatus.cancelled
      · rw [if_pos h2] at h
        exact absurd h (by simp)
      · rw [if_neg h2] at h
        by_cases h3 : fo.markCancelledFails = true
        · rw [if_pos h3] at h
          exact absurd h (by simp)
        · rw [if_neg h3] at h
          by_cases h4 : db.bookings.countP (BookingModel.cancelMatch bid uid) = 0
          · rw [if_pos h4] at h
            exact absurd h (by simp)
          · rw [if_neg h4] at h
            by_cases h5 : fo.releaseSeatsFails = true
            · rw [if_pos h5] at h
              exact absurd h (by simp)
            · rw [if_neg h5] at h
              by_cases h6 : fo.refundWriteFails = true
              · rw [if_pos h6] at h
                exact absurd h (by simp)
              · rw [if_neg h6] at h
                refine ⟨booking.schedule_id, (booking.passenger_count : Int), ?_⟩
                by_cases h7 : 0 < BookingModel.cancelRefundAmount
                    booking.journey_date now booking.total_amount
                · rw [if_pos h7] at h
                  have hdb := h
                  simp at hdb
                  rw [← hdb]
                  rfl
                · rw [if_neg h7] at h
                  have hdb := h
                  simp at hdb
                  rw [← hdb]
                  rfl

/-- The base64 encoding of a non-empty byte sequence is non-empty. -/
theorem base64Encode_ne_nil (l : List Nat) (h : l ≠ []) :
    BookingModel.base64Encode l ≠ [] := by
  match l with
  | [] => exact absurd rfl h
  | [b1] => simp [BookingModel.base64Encode]
  | [b1, b2] => simp [BookingModel.base64Encode]
  | b1 :: b2 :: b3 :: rest => simp [BookingModel.base64Encode]

/-- The UTF-8 encoding of a non-empty character sequence is non-empty. -/
theorem utf8Encode_ne_nil (c : Char) (cs : List Char) :
    BookingModel.utf8Encode (c :: cs) ≠ [] := by
  have hc : BookingModel.utf8EncodeChar c ≠ [] := by
    unfold BookingModel.utf8EncodeChar
    dsimp only
    split_ifs <;> simp
  unfold BookingModel.utf8Encode
  simp only [List.map_cons, List.flatten_cons]
  intro hemp
  exact hc (List.append_eq_nil.mp hemp).1

/-- The ticket credential is never the empty string: the JSON payload
starts with a brace, so its bytes are non-empty and so is their
base64 encoding. -/
theorem generateQRCode_ne_empty (bid : String) (now : Int) :
    BookingModel.generateQRCode bid now ≠ "" := by
  have hd : ∃ c cs, (BookingModel.qrJson bid now).data = c :: cs := by
    unfold BookingModel.qrJson
    rw [String.data_append, String.data_append, String.data_append,
      String.data_append]
    exact ⟨_, _, rfl⟩
  obtain ⟨c, cs, hcs⟩ := hd
  unfold BookingModel.generateQRCode
  intro h
  have hl : BookingModel.base64Encode
      (BookingModel.utf8Encode (BookingModel.qrJson bid now).data) = [] :=
    congrArg String.data h
  rw [hcs] at hl
  exact base64Encode_ne_nil _ (utf8Encode_ne_nil c cs) hl

/-- Phase-count change caused by advancing one request. -/
theorem countPhase_set (l : List ReqPhase) (i : Nat) (p q r : ReqPhase)
    (hg : l[i]? = some p) :
    (l.set i q).countP (fun x => x == r) + (if p = r then 1 else 0)
      = l.countP (fun x => x == r) + (if q = r then 1 else 0) := by
  have h := countP_set_eq l i q p (fun x => x == r) hg
  simpa [beq_iff_eq] using h

/-- A freshly started request pool has no finished requests. -/
theorem countPhase_replicate (M : Nat) (r : ReqPhase)
    (hr : ¬ ReqPhase.pending = r) :
    (List.replicate M ReqPhase.pending).countP (fun x => x == r) = 0 := by
  apply List.countP_eq_zero.mpr
  intro a ha
  rw [List.eq_of_mem_replicate ha]
  simpa using hr

/-- One scheduler step preserves the seat-accounting invariant. -/
theorem concStep_inv (N : Nat) (st : ConcState) (i : Nat)
    (h : ConcInv N st) : ConcInv N (concStep st i) := by
  obtain ⟨h1, h2, h3⟩ := h
  unfold concStep
  cases hg : st.reqs[i]? with
  | none => exact ⟨h1, h2, h3⟩
  | some p =>
    cases p with
    | pending =>
      by_cases hlt : st.seats < 1
      · rw [if_pos hlt]
        have e1 := countPhase_set st.reqs i ReqPhase.pending
          ReqPhase.insufficientSeats ReqPhase.success hg
        have e2 := countPhase_set st.reqs i ReqPhase.pending
          ReqPhase.insufficientSeats ReqPhase.insufficientSeats hg
        have e3 := countPhase_set st.reqs i ReqPhase.pending
          ReqPhase.insufficientSeats ReqPhase.updateFailed hg
        simp only [reduceCtorEq, if_false, if_true, if_pos, if_neg,
          not_false_iff] at e1 e2 e3
        unfold ConcInv nSuccess nInsufficient nUpdateFailed at *
        dsimp only at *
        refine ⟨by omega, h2, by omega⟩
      · rw [if_neg hlt]
        have e1 := countPhase_set st.reqs i ReqPhase.pending
          ReqPhase.checked ReqPhase.success hg
        have e2 := countPhase_set st.reqs i ReqPhase.pending
          ReqPhase.checked ReqPhase.insufficientSeats hg
        have e3 := countPhase_set st.reqs i ReqPhase.pending
          ReqPhase.checked ReqPhase.updateFailed hg
        simp only [reduceCtorEq, if_false, if_true, if_pos, if_neg,
          not_false_iff] at e1 e2 e3
        unfold ConcInv nSuccess nInsufficient nUpdateFailed at *
        dsimp only at *
        refine ⟨by omega, h2, by omega⟩
    | checked =>
      by_cases hdec : 0 ≤ st.seats - 1
      · have hcd : condDecrement st.seats = (st.seats - 1, true) := by
          simp [condDecrement, hdec]
        rw [hcd]
        rw [if_pos (show ((st.seats - 1, true) : Int × Bool).2 = true from rfl)]
        have e1 := countPhase_set st.reqs i ReqPhase.checked
          ReqPhase.success ReqPhase.success hg
        have e2 := countPhase_set st.reqs i ReqPhase.checked
          ReqPhase.success ReqPhase.insufficientSeats hg
        have e3 := countPhase_set st.reqs i ReqPhase.checked
          ReqPhase.success ReqPhase.updateFailed hg
        simp only [reduceCtorEq, if_false, if_true, if_pos, if_neg,
          not_false_iff] at e1 e2 e3
        unfold ConcInv nSuccess nInsufficient nUpdateFailed at *
        dsimp only at *
        refine ⟨by omega, by omega, by omega⟩
      · have hcd : condDecrement st.seats = (st.seats, false) := by
          simp [condDecrement, hdec]
        rw [hcd]
        rw [if_neg (show ¬ (((st.seats, false) : Int × Bool).2 = true) from by simp)]
        have e1 := countPhase_set st.reqs i ReqPhase.checked
          ReqPhase.updateFailed ReqPhase.success hg
        have e2 := countPhase_set st.reqs i ReqPhase.checked
          ReqPhase.updateFailed ReqPhase.insufficientSeats hg
        have e3 := countPhase_set st.reqs i ReqPhase.checked
          ReqPhase.updateFailed ReqPhase.updateFailed hg
        simp only [reduceCtorEq, if_false, if_true, if_pos, if_neg,
          not_false_iff] at e1 e2 e3
        unfold ConcInv nSuccess nInsufficient nUpdateFailed at *
        dsimp only at *
        refine ⟨by omega, h2, by omega⟩
    | success => exact ⟨h1, h2, h3⟩
    | insufficientSeats => exact ⟨h1, h2, h3⟩
    | updateFailed => exact ⟨h1, h2, h3⟩

/-- The seat-accounting invariant holds along any interleaving. -/
theorem concRun_inv (N : Nat) (st : ConcState) (events : List Nat)
    (h : ConcInv N st) : ConcInv N (concRun st events) := by
  induction events generalizing st with
  | nil => exact h
  | cons e es ih => exact ih (concStep st e) (concStep_inv N st e h)

/-- A scheduler step never changes the number of requests. -/
theorem concStep_length (st : ConcState) (i : Nat) :
    (concStep st i).reqs.length = st.reqs.length := by
  unfold concStep
  cases hg : st.reqs[i]? with
  | none => rfl
  | some p =>
    cases p <;> dsimp only <;> split_ifs <;> simp [List.length_set]

/-- An interleaving never changes the number of requests. -/
theorem concRun_length (st : ConcState) (events : List Nat) :
    (concRun st events).reqs.length = st.reqs.length := by
  induction events generalizing st with
  | nil => rfl
  | cons e es ih => rw [concRun] at *; simpa [concStep_length] using ih (concStep st e)

/-- Once all requests are finished, the three outcome counts partition
the pool. -/
theorem phase_partition (l : List ReqPhase) (hf : AllFinished l) :
    nSuccess l + nInsufficient l + nUpdateFailed l = l.length := by
  induction l with
  | nil => rfl
  | cons x xs ih =>
    have hx := hf x (List.mem_cons_self x xs)
    have hxs : AllFinished xs := fun p hp => hf p (List.mem_cons_of_mem x hp)
    have hrec := ih hxs
    unfold nSuccess nInsufficient nUpdateFailed at *
    rcases hx with h | h | h <;> subst h <;>
      simp only [List.countP_cons, List.length_cons, beq_iff_eq, reduceCtorEq,
        if_true, if_false, decide_True, decide_False] <;> omega

/-!
The claims.
-/

/-- C6: the refund computation is a pure function of the departure
timestamp, the injected current time, and the total amount: it yields
90% of the total when the departure is more than 24 hours away, 50%
when it is more than 2 but at most 24 hours away, and 0 when it is at
most 2 hours away (including past departures). -/
theorem claim_C6_refund_policy (j n : Int) (t : ℚ) :
    (24 * 3600000 < j - n →
      BookingModel.cancelRefundAmount j n t = t * (9 / 10)) ∧
    (2 * 3600000 < j - n → j - n ≤ 24 * 3600000 →
      BookingModel.cancelRefundAmount j n t = t * (1 / 2)) ∧
    (j - n ≤ 2 * 3600000 → BookingModel.cancelRefundAmount j n t = 0) := by
  refine ⟨?_, ?_, ?_⟩
  · intro h
    have hc : (24 : ℚ) < ((j - n : Int) : ℚ) / (1000 * 3600) := by
      rw [lt_div_iff₀ (by norm_num : (0:ℚ) < 1000 * 3600)]
      have h2 : ((24 * 3600000 : Int) : ℚ) < ((j - n : Int) : ℚ) := by
        exact_mod_cast h
      push_cast at h2 ⊢
      linarith
    simp only [BookingModel.cancelRefundAmount]
    rw [if_pos hc]
  · intro h1 h2
    have hc1 : ¬ (24 : ℚ) < ((j - n : Int) : ℚ) / (1000 * 3600) := by
      rw [not_lt, div_le_iff₀ (by norm_num : (0:ℚ) < 1000 * 3600)]
      have h3 : ((j - n : Int) : ℚ) ≤ ((24 * 3600000 : Int) : ℚ) := by
        exact_mod_cast h2
      push_cast at h3 ⊢
      linarith
    have hc2 : (2 : ℚ) < ((j - n : Int) : ℚ) / (1000 * 3600) := by
      rw [lt_div_iff₀ (by norm_num : (0:ℚ) < 1000 * 3600)]
      have h3 : ((2 * 3600000 : Int) : ℚ) < ((j - n : Int) : ℚ) := by
        exact_mod_cast h1
      push_cast at h3 ⊢
      linarith
    simp only [BookingModel.cancelRefundAmount]
    rw [if_neg hc1, if_pos hc2]
  · intro h
    have h3 : ((j - n : Int) : ℚ) ≤ ((2 * 3600000 : Int) : ℚ) := by
      exact_mod_cast h
    have hc1 : ¬ (24 : ℚ) < ((j - n : Int) : ℚ) / (1000 * 3600) := by
      rw [not_lt, div_le_iff₀ (by norm_num : (0:ℚ) < 1000 * 3600)]
      push_cast at h3 ⊢
      linarith
    have hc2 : ¬ (2 : ℚ) < ((j - n : Int) : ℚ) / (1000 * 3600) := by
      rw [not_lt, div_le_iff₀ (by norm_num : (0:ℚ) < 1000 * 3600)]
      push_cast at h3 ⊢
      linarith
    simp only [BookingModel.cancelRefundAmount]
    rw [if_neg hc1, if_neg hc2]

/-- Witness for C6 at the spec's example values: amount 1000 gives 900
at 48h, 500 at 10h, 0 at 1h, and 0 for a departure 5h in the past. -/
theorem claim_C6_witness :
    BookingModel.cancelRefundAmount (48 * 3600000) 0 1000 = 900 ∧
    BookingModel.cancelRefundAmount (10 * 3600000) 0 1000 = 500 ∧
    BookingModel.cancelRefundAmount (1 * 3600000) 0 1000 = 0 ∧
    BookingModel.cancelRefundAmount (-(5 * 3600000)) 0 1000 = 0 := by
  refine ⟨?_, ?_, ?_, ?_⟩
  · rw [(claim_C6_refund_policy (48 * 3600000) 0 1000).1 (by norm_num)]
    norm_num
  · rw [(claim_C6_refund_policy (10 * 3600000) 0 1000).2.1 (by norm_num)
      (by norm_num)]
    norm_num
  · exact (claim_C6_refund_policy (1 * 3600000) 0 1000).2.2 (by norm_num)
  · exact (claim_C6_refund_policy (-(5 * 3600000)) 0 1000).2.2 (by norm_num)

/-- C3: both units of work are all-or-nothing.  Whatever storage step
fails (injected through the failure flags) or whatever validation
rejects the request, the operation returns an error together with the
unchanged database state, so no partial mutation is observable. -/
theorem claim_C3_rollback (db : DB) (u : String) (req : BookingRequest)
    (nid rnd : String) (now : Int) (fo : BookingModel.CreateFailures)
    (bid uid : String) (reason : Option String) (now2 : Int)
    (fo2 : BookingModel.CancelFailures) :
    (∀ db1 e, BookingModel.create db u req nid rnd now fo = (db1, Except.error e)
      → db1 = db) ∧
    (∀ db1 e, BookingModel.cancelBooking db bid uid reason now2 fo2
        = (db1, Except.error e) → db1 = db) := by
  constructor
  · intro db1 e h
    unfold BookingModel.create at h
    cases hb : BookingModel.createBody db u req nid rnd now fo with
    | error e2 =>
      rw [hb] at h
      simp at h
      exact h.1.symm
    | ok v =>
      obtain ⟨dbx, bk⟩ := v
      rw [hb] at h
      simp at h
  · intro db1 e h
    unfold BookingModel.cancelBooking at h
    cases hb : BookingModel.cancelBody db bid uid reason now2 fo2 with
    | error e2 =>
      rw [hb] at h
      simp at h
      exact h.1.symm
    | ok v =>
      rw [hb] at h
      simp at h

/-- Witness for C3: creating against an empty database fails with
`scheduleNotFound` and leaves the state unchanged, and cancelling a
missing booking fails with `bookingNotFound` and leaves the state
unchanged. -/
theorem claim_C3_witness :
    (BookingModel.create (DB.mk [] [] [] [] []) "u1" sampleRequest "b1" "ABCD"
        1000 BookingModel.noCreateFailures).1 = DB.mk [] [] [] [] [] ∧
    (BookingModel.cancelBooking (DB.mk [] [] [] [] []) "b1" "u1" none 1000
        BookingModel.noCancelFailures).1 = DB.mk [] [] [] [] [] := by
  constructor
  · exact (claim_C3_rollback (DB.mk [] [] [] [] []) "u1" sampleRequest "b1"
      "ABCD" 1000 BookingModel.noCreateFailures "b1" "u1" none 1000
      BookingModel.noCancelFailures).1
      (BookingModel.create (DB.mk [] [] [] [] []) "u1" sampleRequest "b1"
        "ABCD" 1000 BookingModel.noCreateFailures).1
      BookingModel.BookingError.scheduleNotFound (by rfl)
  · exact (claim_C3_rollback (DB.mk [] [] [] [] []) "u1" sampleRequest "b1"
      "ABCD" 1000 BookingModel.noCreateFailures "b1" "u1" none 1000
      BookingModel.noCancelFailures).2
      (BookingModel.cancelBooking (DB.mk [] [] [] [] []) "b1" "u1" none 1000
        BookingModel.noCancelFailures).1
      BookingModel.BookingError.bookingNotFound (by rfl)

/-- C1: remaining seat counts never become negative.  The conditional
update either leaves a row unchanged or leaves it non-negative, and it
reports whether any row was updated; and both `create` (which
decrements through it) and `cancelBooking` (which releases through it)
preserve non-negativity of every schedule row, whatever storage
failures are injected. -/
theorem claim_C1_available_seats_nonneg (db : DB) (sid : String)
    (delta now : Int) (u : String) (req : BookingRequest) (nid rnd : String)
    (fo : BookingModel.CreateFailures) (bid uid : String)
    (reason : Option String) (fo2 : BookingModel.CancelFailures)
    (hnn : ∀ s ∈ db.schedules, 0 ≤ s.available_seats) :
    List.Forall₂ (fun s t => t = s ∨ 0 ≤ t.available_seats) db.schedules
      (ScheduleModel.updateAvailableSeats db sid delta now).1.schedules ∧
    ((ScheduleModel.updateAvailableSeats db sid delta now).2 = true ↔
      ∃ s ∈ db.schedules, s.id = sid ∧ 0 ≤ s.available_seats + delta) ∧
    (∀ s ∈ (ScheduleModel.updateAvailableSeats db sid delta now).1.schedules,
      0 ≤ s.available_seats) ∧
    (∀ s ∈ (BookingModel.create db u req nid rnd now fo).1.schedules,
      0 ≤ s.available_seats) ∧
    (∀ s ∈ (BookingModel.cancelBooking db bid uid reason now fo2).1.schedules,
      0 ≤ s.available_seats) := by
  refine ⟨?_, ?_, ?_, ?_, ?_⟩
  · apply forall₂_updateWhere
    intro x hx
    by_cases hq : ScheduleModel.seatCond sid delta x = true
    · rw [if_pos hq]
      right
      have h2 : 0 ≤ x.available_seats + delta := by
        simp [ScheduleModel.seatCond] at hq
        exact hq.2
      simpa [ScheduleModel.seatUpd] using h2
    · rw [if_neg hq]
      left
      rfl
  · simp only [ScheduleModel.updateAvailableSeats, decide_eq_true_eq]
    rw [List.countP_pos_iff]
    constructor
    · rintro ⟨s, hs, hcond⟩
      simp [ScheduleModel.seatCond] at hcond
      exact ⟨s, hs, hcond⟩
    · rintro ⟨s, hs, h1, h2⟩
      exact ⟨s, hs, by simp [ScheduleModel.seatCond, h1, h2]⟩
  · exact seatUpdate_nonneg sid delta now db.schedules hnn
  · unfold BookingModel.create
    cases hb : BookingModel.createBody db u req nid rnd now fo with
    | error e => exact hnn
    | ok v =>
      obtain ⟨dbx, bk⟩ := v
      have hsch := createBody_ok_schedules db u req nid rnd now fo dbx bk hb
      dsimp only
      rw [hsch]
      exact seatUpdate_nonneg _ _ now db.schedules hnn
  · unfold BookingModel.cancelBooking
    cases hb : BookingModel.cancelBody db bid uid reason now fo2 with
    | error e => exact hnn
    | ok dbx =>
      obtain ⟨sid2, delta2, hsch⟩ :=
        cancelBody_ok_schedules db bid uid reason now fo2 dbx hb
      dsimp only
      rw [hsch]
      exact seatUpdate_nonneg _ _ now db.schedules hnn

/-- Witness for C1 on the sample database (2 seats, one one-passenger
create and one cancel attempt). -/
theorem claim_C1_witness :
    (∀ s ∈ (ScheduleModel.updateAvailableSeats sampleDB "sch1" (-1) 1000).1.schedules,
      0 ≤ s.available_seats) ∧
    (∀ s ∈ (BookingModel.create sampleDB "u1" sampleRequest "b1" "ABCD" 1000
        BookingModel.noCreateFailures).1.schedules, 0 ≤ s.available_seats) := by
  have h := claim_C1_available_seats_nonneg sampleDB "sch1" (-1) 1000 "u1"
    sampleRequest "b1" "ABCD" BookingModel.noCreateFailures "b1" "u1" none
    BookingModel.noCancelFailures (by decide)
  exact ⟨h.2.2.1, h.2.2.2.1⟩

/-- Every row carrying the updated id after a `paid` status update has
a non-empty ticket credential. -/
theorem paidUpdate_qr_aux (db : DB) (bid : String) (ref : Option String)
    (now : Int) :
    ∀ b1 ∈ (BookingModel.updatePaymentStatus db bid PaymentStatus.paid ref
        now).1.bookings, b1.id = bid → ∃ q, b1.qr_code = some q ∧ q ≠ "" := by
  intro b1 hb1 hid
  rcases List.mem_map.mp hb1 with ⟨x, hx, hxe⟩
  by_cases hq : BookingModel.idMatch bid x = true
  · rw [if_pos hq] at hxe
    refine ⟨BookingModel.generateQRCode bid now, ?_, generateQRCode_ne_empty bid now⟩
    rw [← hxe]
    unfold BookingModel.payUpd
    cases ref with
    | none => simp
    | some r =>
      by_cases hr : r.isEmpty <;> simp [hr]
  · rw [if_neg hq] at hxe
    rw [← hxe] at hid
    exact absurd (by simp [BookingModel.idMatch, hid]) hq

/-- C9: a successful transition to `paid` always materializes a
non-empty ticket credential, the call succeeds exactly when the booking
row exists, and repeating the `paid` update re-materializes a credential
that is again non-empty. -/
theorem claim_C9_paid_implies_qr (db : DB) (bid : String) (ref : Option String)
    (now now2 : Int) :
    (∀ b1 ∈ (BookingModel.updatePaymentStatus db bid PaymentStatus.paid ref
        now).1.bookings, b1.id = bid → ∃ q, b1.qr_code = some q ∧ q ≠ "") ∧
    ((BookingModel.updatePaymentStatus db bid PaymentStatus.paid ref now).2
        = true ↔ ∃ b ∈ db.bookings, b.id = bid) ∧
    (∀ b1 ∈ (BookingModel.updatePaymentStatus
        (BookingModel.updatePaymentStatus db bid PaymentStatus.paid ref now).1
        bid PaymentStatus.paid ref now2).1.bookings,
      b1.id = bid → ∃ q, b1.qr_code = some q ∧ q ≠ "") := by
  refine ⟨paidUpdate_qr_aux db bid ref now, ?_, paidUpdate_qr_aux _ bid ref now2⟩
  simp only [BookingModel.updatePaymentStatus, decide_eq_true_eq]
  rw [List.countP_pos_iff]
  constructor
  · rintro ⟨b, hb, hcond⟩
    exact ⟨b, hb, by simpa [BookingModel.idMatch] using hcond⟩
  · rintro ⟨b, hb, hid⟩
    exact ⟨b, hb, by simp [BookingModel.idMatch, hid]⟩

/-- Witness for C9 on the sample database: paying booking `b1` yields a
non-empty credential. -/
theorem claim_C9_witness :
    ∃ q, (BookingModel.updatePaymentStatus sampleDB1 "b1" PaymentStatus.paid
        (some "payref") 3000).1.bookings.head?.map Booking.qr_code
      = some (some q) ∧ q ≠ "" := by
  have h := (claim_C9_paid_implies_qr sampleDB1 "b1" (some "payref") 3000
    4000).1
  have hmem : ∀ b1 ∈ (BookingModel.updatePaymentStatus sampleDB1 "b1"
      PaymentStatus.paid (some "payref") 3000).1.bookings, b1.id = "b1" := by
    decide
  cases hhead : (BookingModel.updatePaymentStatus sampleDB1 "b1"
      PaymentStatus.paid (some "payref") 3000).1.bookings with
  | nil => exact absurd hhead (by decide)
  | cons b rest =>
    obtain ⟨q, hq, hne⟩ := h b (by rw [hhead]; exact List.mem_cons_self b rest)
      (hmem b (by rw [hhead]; exact List.mem_cons_self b rest))
    refine ⟨q, ?_, hne⟩
    simp [hq]

/-- C10: `updatePaymentStatus` only touches the targeted booking row,
and on it only `payment_status`, `updated_at`, `payment_reference`
(only when a reference argument was supplied; when omitted it is
unchanged) and `qr_code` (only when the new status is `paid`).  Every
other column of every row, every other row, and every other table are
unchanged. -/
theorem claim_C10_frame (db : DB) (bid : String) (st : PaymentStatus)
    (ref : Option String) (now : Int) :
    (BookingModel.updatePaymentStatus db bid st ref now).1.users = db.users ∧
    (BookingModel.updatePaymentStatus db bid st ref now).1.trains = db.trains ∧
    (BookingModel.updatePaymentStatus db bid st ref now).1.stations
      = db.stations ∧
    (BookingModel.updatePaymentStatus db bid st ref now).1.schedules
      = db.schedules ∧
    List.Forall₂ (fun b c =>
        c.id = b.id ∧
        c.user_id = b.user_id ∧
        c.schedule_id = b.schedule_id ∧
        c.booking_reference = b.booking_reference ∧
        c.passenger_count = b.passenger_count ∧
        c.passenger_details = b.passenger_details ∧
        c.departure_station = b.departure_station ∧
        c.arrival_station = b.arrival_station ∧
        c.journey_date = b.journey_date ∧
        c.departure_time = b.departure_time ∧
        c.seat_numbers = b.seat_numbers ∧
        c.total_amount = b.total_amount ∧
        c.payment_method = b.payment_method ∧
        c.booking_status = b.booking_status ∧
        c.cancellation_reason = b.cancellation_reason ∧
        c.refund_amount = b.refund_amount ∧
        c.booked_at = b.booked_at ∧
        c.cancelled_at = b.cancelled_at ∧
        c.created_at = b.created_at ∧
        (b.id ≠ bid → c = b) ∧
        (ref = none → c.payment_reference = b.payment_reference) ∧
        (st ≠ PaymentStatus.paid → c.qr_code = b.qr_code))
      db.bookings
      (BookingModel.updatePaymentStatus db bid st ref now).1.bookings := by
  refine ⟨rfl, rfl, rfl, rfl, ?_⟩
  apply forall₂_updateWhere
  intro x hx
  by_cases hq : BookingModel.idMatch bid x = true
  · rw [if_pos hq]
    have hid : x.id = bid := by simpa [BookingModel.idMatch] using hq
    unfold BookingModel.payUpd
    cases ref with
    | none =>
      by_cases hp : st = PaymentStatus.paid <;>
        simp [hp, hid]
    | some r =>
      by_cases hr : r.isEmpty <;> by_cases hp : st = PaymentStatus.paid <;>
        simp [hr, hp, hid]
  · rw [if_neg hq]
    simp

/-- Witness for C10 on the sample database. -/
theorem claim_C10_witness :
    (BookingModel.updatePaymentStatus sampleDB1 "b1" PaymentStatus.paid
        (some "payref") 3000).1.schedules = sampleDB1.schedules :=
  (claim_C10_frame sampleDB1 "b1" PaymentStatus.paid (some "payref") 3000).2.2.2.1

/-- Counterexample to C8: `updatePaymentStatus` enforces no transition
state machine.  On a booking whose payment status is `refunded`,
requesting `paid` (a transition outside
pending→paid/pending→failed/paid→refunded/failed→pending) does not
fail with any `InvalidStatus` error: it reports success and overwrites
the status, changing the booking. -/
theorem claim_C8_counterexample :
    (BookingModel.updatePaymentStatus refundedDB "b1" PaymentStatus.paid
        (some "payref") 2000).2 = true ∧
    (BookingModel.updatePaymentStatus refundedDB "b1" PaymentStatus.paid
        (some "payref") 2000).1.bookings.map Booking.payment_status
      = [PaymentStatus.paid] ∧
    refundedDB.bookings.map Booking.payment_status
      = [PaymentStatus.refunded] := by
  refine ⟨by rfl, by rfl, by rfl⟩

/-- C8 amended: `updatePaymentStatus` performs no transition
validation.  It reports success exactly when a booking row with the
given id exists, in which case it sets `payment_status` to the
requested value whatever the previous value was; when no row matches
it reports failure and leaves the database unchanged.  (Requesting a
value outside the four statuses is impossible by typing; no
`InvalidStatus` discrimination exists in the code.) -/
theorem claim_C8_amended (db : DB) (bid : String) (st : PaymentStatus)
    (ref : Option String) (now : Int) :
    ((BookingModel.updatePaymentStatus db bid st ref now).2 = true ↔
      ∃ b ∈ db.bookings, b.id = bid) ∧
    (∀ b1 ∈ (BookingModel.updatePaymentStatus db bid st ref now).1.bookings,
      b1.id = bid → b1.payment_status = st) ∧
    ((¬ ∃ b ∈ db.bookings, b.id = bid) →
      (BookingModel.updatePaymentStatus db bid st ref now).1 = db) := by
  refine ⟨?_, ?_, ?_⟩
  · simp only [BookingModel.updatePaymentStatus, decide_eq_true_eq]
    rw [List.countP_pos_iff]
    constructor
    · rintro ⟨b, hb, hcond⟩
      exact ⟨b, hb, by simpa [BookingModel.idMatch] using hcond⟩
    · rintro ⟨b, hb, hid⟩
      exact ⟨b, hb, by simp [BookingModel.idMatch, hid]⟩
  · intro b1 hb1 hid
    rcases List.mem_map.mp hb1 with ⟨x, hx, hxe⟩
    by_cases hq : BookingModel.idMatch bid x = true
    · rw [if_pos hq] at hxe
      rw [← hxe]
      unfold BookingModel.payUpd
      cases ref with
      | none => by_cases hp : st = PaymentStatus.paid <;> simp [hp]
      | some r =>
        by_cases hr : r.isEmpty <;> by_cases hp : st = PaymentStatus.paid <;>
          simp [hr, hp]
    · rw [if_neg hq] at hxe
      rw [← hxe] at hid
      exact absurd (by simp [BookingModel.idMatch, hid]) hq
  · intro hno
    have hall : ∀ x ∈ db.bookings, ¬ BookingModel.idMatch bid x = true := by
      intro x hx hcon
      exact hno ⟨x, hx, by simpa [BookingModel.idMatch] using hcon⟩
    show (DB.mk db.users db.trains db.stations db.schedules
        (updateWhere (BookingModel.idMatch bid)
          (BookingModel.payUpd bid st ref now) db.bookings)) = db
    rw [updateWhere_eq_self _ _ _ hall]

/-- Witness for C8 amended: updating a missing booking id reports
failure and leaves the sample database unchanged. -/
theorem claim_C8_witness :
    (BookingModel.updatePaymentStatus sampleDB1 "missing" PaymentStatus.paid
        none 2000).1 = sampleDB1 :=
  (claim_C8_amended sampleDB1 "missing" PaymentStatus.paid none 2000).2.2
    (by decide)

/-- Counterexample to C7: cancelling one hour before departure
succeeds with a computed refund of 0, but the refund is not persisted:
the source only writes `refund_amount` when the amount is positive
(`if (refundAmount > 0)`), so the column stays NULL instead of holding
the computed 0. -/
theorem claim_C7_counterexample :
    BookingModel.cancelRefundAmount 200000000 lateNow 100 = 0 ∧
    (BookingModel.cancelBooking lateDB "b1" "u1" (some "late cancel") lateNow
        BookingModel.noCancelFailures).2 = Except.ok true ∧
    (BookingModel.cancelBooking lateDB "b1" "u1" (some "late cancel") lateNow
        BookingModel.noCancelFailures).1.bookings.map Booking.refund_amount
      = [none] := by
  have h1 : BookingModel.cancelRefundAmount 200000000 lateNow 100 = 0 := by
    unfold BookingModel.cancelRefundAmount lateNow
    norm_num
  have hr : ¬ 0 < BookingModel.cancelRefundAmount sampleBooking.journey_date
      lateNow sampleBooking.total_amount := by
    rw [show sampleBooking.journey_date = 200000000 from rfl,
        show sampleBooking.total_amount = (100 : ℚ) from rfl, h1]
    norm_num
  have hfind : BookingModel.findById lateDB "b1" (some "u1")
      = some sampleBooking := by decide
  have hok := cancelBooking_ok_eq lateDB "b1" "u1" (some "late cancel") lateNow
    sampleBooking hfind (by decide)
  refine ⟨h1, by rw [hok], ?_⟩
  rw [hok]
  dsimp only
  simp only [BookingModel.cancelResult, if_neg hr]
  decide

/-- C7 amended: on a successful cancellation the computed refund always
lies between 0 and the booking's total amount inclusive; it is
persisted on `refund_amount` when it is positive, while a computed
refund of 0 leaves `refund_amount` unchanged (NULL when previously
unset) rather than storing 0. -/
theorem claim_C7_amended (db : DB) (bid uid : String) (reason : Option String)
    (now : Int) (b : Booking)
    (hfind : BookingModel.findById db bid (some uid) = some b)
    (hnc : ¬ b.booking_status = BookingStatus.cancelled)
    (ht : 0 ≤ b.total_amount) :
    (BookingModel.cancelBooking db bid uid reason now
        BookingModel.noCancelFailures).2 = Except.ok true ∧
    0 ≤ BookingModel.cancelRefundAmount b.journey_date now b.total_amount ∧
    BookingModel.cancelRefundAmount b.journey_date now b.total_amount
      ≤ b.total_amount ∧
    (0 < BookingModel.cancelRefundAmount b.journey_date now b.total_amount →
      ∃ b1, BookingModel.findById
          (BookingModel.cancelBooking db bid uid reason now
            BookingModel.noCancelFailures).1 bid (some uid) = some b1 ∧
        b1.refund_amount = some (BookingModel.cancelRefundAmount
          b.journey_date now b.total_amount)) ∧
    (BookingModel.cancelRefundAmount b.journey_date now b.total_amount ≤ 0 →
      ∃ b1, BookingModel.findById
          (BookingModel.cancelBooking db bid uid reason now
            BookingModel.noCancelFailures).1 bid (some uid) = some b1 ∧
        b1.refund_amount = b.refund_amount) := by
  have hok := cancelBooking_ok_eq db bid uid reason now b hfind hnc
  have hlook := findById_cancelResult db bid uid reason now b hfind
  refine ⟨by rw [hok], ?_, ?_, ?_, ?_⟩
  · unfold BookingModel.cancelRefundAmount
    dsimp only
    split_ifs
    · exact mul_nonneg ht (by norm_num)
    · exact mul_nonneg ht (by norm_num)
    · exact le_refl 0
  · unfold BookingModel.cancelRefundAmount
    dsimp only
    split_ifs
    · exact mul_le_of_le_one_right ht (by norm_num)
    · exact mul_le_of_le_one_right ht (by norm_num)
    · exact ht
  · intro hr
    rw [hok]
    dsimp only
    rw [hlook]
    rw [if_pos hr]
    exact ⟨_, rfl, rfl⟩
  · intro hr
    have hr2 : ¬ 0 < BookingModel.cancelRefundAmount b.journey_date now
        b.total_amount := by linarith
    rw [hok]
    dsimp only
    rw [hlook]
    rw [if_neg hr2]
    exact ⟨_, rfl, rfl⟩

/-- Witness for C7 amended, cancelling the sample booking 55 hours
before departure: it succeeds and the 90% refund of 90 is persisted. -/
theorem claim_C7_witness :
    (BookingModel.cancelBooking sampleDB1 "b1" "u1" (some "plans changed") 2000
        BookingModel.noCancelFailures).2 = Except.ok true ∧
    (0 < BookingModel.cancelRefundAmount sampleBooking.journey_date 2000
        sampleBooking.total_amount →
      ∃ b1, BookingModel.findById
          (BookingModel.cancelBooking sampleDB1 "b1" "u1" (some "plans changed")
            2000 BookingModel.noCancelFailures).1 "b1" (some "u1") = some b1 ∧
        b1.refund_amount = some (BookingModel.cancelRefundAmount
          sampleBooking.journey_date 2000 sampleBooking.total_amount)) := by
  have h := claim_C7_amended sampleDB1 "b1" "u1" (some "plans changed") 2000
    sampleBooking (by decide) (by decide) (by decide)
  exact ⟨h.1, h.2.2.2.1⟩

/-- C4: cancellation is idempotent in effect and discriminates its
errors.  For an existing non-cancelled booking the first call succeeds,
marks the row cancelled with the reason and the cancellation timestamp,
and releases exactly `passenger_count` seats back to the departure; a
second call fails with `alreadyCancelled` and changes nothing; a call
for an id with no matching booking fails with `bookingNotFound` and
changes nothing. -/
theorem claim_C4_cancel_idempotent (db : DB) (bid uid : String)
    (reason reason2 : Option String) (now now2 : Int) (b : Booking)
    (s : Schedule)
    (hfind : BookingModel.findById db bid (some uid) = some b)
    (hnc : ¬ b.booking_status = BookingStatus.cancelled)
    (hs : db.schedules.find? (fun x => x.id == b.schedule_id) = some s)
    (hs0 : 0 ≤ s.available_seats) :
    (BookingModel.cancelBooking db bid uid reason now
        BookingModel.noCancelFailures).2 = Except.ok true ∧
    (∃ b1, BookingModel.findById
        (BookingModel.cancelBooking db bid uid reason now
          BookingModel.noCancelFailures).1 bid (some uid) = some b1 ∧
      b1.booking_status = BookingStatus.cancelled ∧
      b1.cancellation_reason = reason ∧
      b1.cancelled_at = some now ∧
      b1.passenger_count = b.passenger_count) ∧
    ((BookingModel.cancelBooking db bid uid reason now
        BookingModel.noCancelFailures).1.schedules.find?
        (fun x => x.id == b.schedule_id)
      = some (ScheduleModel.seatUpd (b.passenger_count : Int) now s)) ∧
    (BookingModel.cancelBooking
        (BookingModel.cancelBooking db bid uid reason now
          BookingModel.noCancelFailures).1 bid uid reason2 now2
        BookingModel.noCancelFailures
      = ((BookingModel.cancelBooking db bid uid reason now
          BookingModel.noCancelFailures).1,
         Except.error BookingModel.BookingError.alreadyCancelled)) ∧
    (∀ (db0 : DB) (bid0 uid0 : String),
      BookingModel.findById db0 bid0 (some uid0) = none →
      BookingModel.cancelBooking db0 bid0 uid0 reason now
          BookingModel.noCancelFailures
        = (db0, Except.error BookingModel.BookingError.bookingNotFound)) := by
  have hok := cancelBooking_ok_eq db bid uid reason now b hfind hnc
  have hlook := findById_cancelResult db bid uid reason now b hfind
  have hstat : (if 0 < BookingModel.cancelRefundAmount b.journey_date now
          b.total_amount
        then BookingModel.refundMark (BookingModel.cancelRefundAmount
          b.journey_date now b.total_amount) (BookingModel.cancelMark reason now b)
        else BookingModel.cancelMark reason now b).booking_status
      = BookingStatus.cancelled := by
    by_cases hr : 0 < BookingModel.cancelRefundAmount b.journey_date now
        b.total_amount <;>
      simp [hr, BookingModel.refundMark, BookingModel.cancelMark]
  refine ⟨by rw [hok], ?_, ?_, ?_, ?_⟩
  · rw [hok]
    dsimp only
    refine ⟨_, hlook, hstat, ?_, ?_, ?_⟩
    · by_cases hr : 0 < BookingModel.cancelRefundAmount b.journey_date now
          b.total_amount <;>
        simp [hr, BookingModel.refundMark, BookingModel.cancelMark]
    · by_cases hr : 0 < BookingModel.cancelRefundAmount b.journey_date now
          b.total_amount <;>
        simp [hr, BookingModel.refundMark, BookingModel.cancelMark]
    · by_cases hr : 0 < BookingModel.cancelRefundAmount b.journey_date now
          b.total_amount <;>
        simp [hr, BookingModel.refundMark, BookingModel.cancelMark]
  · rw [hok]
    dsimp only
    have hc : 0 ≤ s.available_seats + (b.passenger_count : Int) := by
      have hp : (0 : Int) ≤ (b.passenger_count : Int) := Int.ofNat_nonneg _
      omega
    exact find?_schedule_after_update db.schedules b.schedule_id
      (b.passenger_count : Int) now s hs hc
  · rw [hok]
    dsimp only
    unfold BookingModel.cancelBooking
    have hbody : BookingModel.cancelBody
        (BookingModel.cancelResult db bid uid reason now b) bid uid reason2 now2
        BookingModel.noCancelFailures
        = Except.error BookingModel.BookingError.alreadyCancelled := by
      unfold BookingModel.cancelBody
      simp only [BookingModel.noCancelFailures, Bool.false_eq_true, if_false]
      simp only [hlook]
      rw [if_pos hstat]
    rw [hbody]
  · intro db0 bid0 uid0 hnone
    unfold BookingModel.cancelBooking
    have hbody : BookingModel.cancelBody db0 bid0 uid0 reason now
        BookingModel.noCancelFailures
        = Except.error BookingModel.BookingError.bookingNotFound := by
      unfold BookingModel.cancelBody
      simp only [BookingModel.noCancelFailures, Bool.false_eq_true, if_false]
      simp only [hnone]
    rw [hbody]

/-- Witness for C4 on the sample database: the first cancellation of
`b1` succeeds and the second fails with `alreadyCancelled` leaving the
state unchanged. -/
theorem claim_C4_witness :
    (BookingModel.cancelBooking sampleDB1 "b1" "u1" (some "trip changed") 2000
        BookingModel.noCancelFailures).2 = Except.ok true ∧
    BookingModel.cancelBooking
        (BookingModel.cancelBooking sampleDB1 "b1" "u1" (some "trip changed")
          2000 BookingModel.noCancelFailures).1 "b1" "u1" none 3000
        BookingModel.noCancelFailures
      = ((BookingModel.cancelBooking sampleDB1 "b1" "u1" (some "trip changed")
          2000 BookingModel.noCancelFailures).1,
         Except.error BookingModel.BookingError.alreadyCancelled) := by
  have h := claim_C4_cancel_idempotent sampleDB1 "b1" "u1" (some "trip changed")
    none 2000 3000 sampleBooking
    { sampleSchedule with available_seats := 1, updated_at := 1000 }
    (by decide) (by decide) (by decide) (by decide)
  exact ⟨h.1, h.2.2.2.1⟩

/-- C5: under referential integrity, `create` fails with
`scheduleNotFound` exactly when the referenced departure row is absent,
fails with `notEnoughSeats` exactly when the remaining seats are fewer
than the passenger count, and otherwise persists and returns a booking
priced at `price * passengers`, with payment status `pending` and
booking status `confirmed`, while the departure's remaining seats drop
by the passenger count. -/
theorem claim_C5_create_spec (db : DB) (u : String) (req : BookingRequest)
    (nid rnd : String) (now : Int) (s : Schedule) (hwf : db.WellFormed) :
    (ScheduleModel.findById db req.schedule_id = none ↔
      ¬ ∃ s0 ∈ db.schedules, s0.id = req.schedule_id) ∧
    (ScheduleModel.findById db req.schedule_id = none →
      BookingModel.create db u req nid rnd now BookingModel.noCreateFailures
        = (db, Except.error BookingModel.BookingError.scheduleNotFound)) ∧
    (ScheduleModel.findById db req.schedule_id = some s →
      s.available_seats < (req.passengers.length : Int) →
      BookingModel.create db u req nid rnd now BookingModel.noCreateFailures
        = (db, Except.error BookingModel.BookingError.notEnoughSeats)) ∧
    (ScheduleModel.findById db req.schedule_id = some s →
      ¬ s.available_seats < (req.passengers.length : Int) →
      (BookingModel.create db u req nid rnd now
          BookingModel.noCreateFailures).2
        = Except.ok (BookingModel.newBookingRow u req nid rnd now s) ∧
      (BookingModel.newBookingRow u req nid rnd now s).total_amount
        = s.price * (req.passengers.length : ℚ) ∧
      (BookingModel.newBookingRow u req nid rnd now s).payment_status
        = PaymentStatus.pending ∧
      (BookingModel.newBookingRow u req nid rnd now s).booking_status
        = BookingStatus.confirmed ∧
      (BookingModel.newBookingRow u req nid rnd now s).passenger_count
        = req.passengers.length ∧
      (BookingModel.newBookingRow u req nid rnd now s).passenger_details
        = req.passengers ∧
      (BookingModel.create db u req nid rnd now
          BookingModel.noCreateFailures).1.bookings
        = db.bookings ++ [BookingModel.newBookingRow u req nid rnd now s] ∧
      (BookingModel.create db u req nid rnd now
          BookingModel.noCreateFailures).1.schedules.find?
          (fun x => x.id == req.schedule_id)
        = some (ScheduleModel.seatUpd (-(req.passengers.length : Int)) now s)) := by
  refine ⟨?_, ?_, ?_, ?_⟩
  · rw [scheduleFindById_eq_find db req.schedule_id hwf, List.find?_eq_none]
    constructor
    · intro h hex
      obtain ⟨s0, hs0, hid⟩ := hex
      exact (h s0 hs0) (by simp [hid])
    · intro h x hx hc
      exact h ⟨x, hx, by simpa using hc⟩
  · intro hnone
    unfold BookingModel.create
    have hbody : BookingModel.createBody db u req nid rnd now
        BookingModel.noCreateFailures
        = Except.error BookingModel.BookingError.scheduleNotFound := by
      unfold BookingModel.createBody
      simp only [BookingModel.noCreateFailures, Bool.false_eq_true, if_false]
      simp only [hnone]
    rw [hbody]
  · intro hsome hlt
    unfold BookingModel.create
    have hbody : BookingModel.createBody db u req nid rnd now
        BookingModel.noCreateFailures
        = Except.error BookingModel.BookingError.notEnoughSeats := by
      unfold BookingModel.createBody
      simp only [BookingModel.noCreateFailures, Bool.false_eq_true, if_false]
      simp only [hsome]
      rw [if_pos hlt]
    rw [hbody]
  · intro hsome hge
    have hok := create_ok_eq db u req nid rnd now s hsome hge
    have hsfind : db.schedules.find? (fun x => x.id == req.schedule_id)
        = some s := by
      rw [← scheduleFindById_eq_find db req.schedule_id hwf]
      exact hsome
    refine ⟨by rw [hok], rfl, rfl, rfl, rfl, rfl, by rw [hok]; rfl, ?_⟩
    rw [hok]
    dsimp only
    have hc : 0 ≤ s.available_seats + (-(req.passengers.length : Int)) := by
      omega
    exact find?_schedule_after_update db.schedules req.schedule_id
      (-(req.passengers.length : Int)) now s hsfind hc

/-- Witness for C5 on the sample database: creating a one-passenger
booking on the 2-seat departure succeeds with amount 100 = 100 * 1. -/
theorem claim_C5_witness :
    (BookingModel.create sampleDB "u1" sampleRequest "b1" "ABCD" 1000
        BookingModel.noCreateFailures).2
      = Except.ok (BookingModel.newBookingRow "u1" sampleRequest "b1" "ABCD"
          1000 sampleSchedule) ∧
    (BookingModel.newBookingRow "u1" sampleRequest "b1" "ABCD" 1000
        sampleSchedule).total_amount
      = sampleSchedule.price * (sampleRequest.passengers.length : ℚ) := by
  have h := (claim_C5_create_spec sampleDB "u1" sampleRequest "b1" "ABCD" 1000
    sampleSchedule (by decide)).2.2.2 (by decide) (by decide)
  exact ⟨h.1, h.2.1⟩

/-- Counterexample to C2: with N = 1 seat and M = 2 concurrent one-seat
requests, the interleaving check-check-update-update makes the second
request pass the availability check and then fail at the conditional
seat update, so it is rejected with the seat-update error
(`Failed to update available seats`), not with `InsufficientCapacity`
(`Not enough seats available`) as the claim states for all M − N
rejected requests. -/
theorem claim_C2_counterexample :
    (concRun (ConcState.mk 1 [ReqPhase.pending, ReqPhase.pending])
        [0, 1, 0, 1]).reqs
      = [ReqPhase.success, ReqPhase.updateFailed] ∧
    nInsufficient (concRun (ConcState.mk 1 [ReqPhase.pending, ReqPhase.pending])
        [0, 1, 0, 1]).reqs = 0 ∧
    nUpdateFailed (concRun (ConcState.mk 1 [ReqPhase.pending, ReqPhase.pending])
        [0, 1, 0, 1]).reqs = 1 ∧
    (concRun (ConcState.mk 1 [ReqPhase.pending, ReqPhase.pending])
        [0, 1, 0, 1]).seats = 0 := by
  refine ⟨by decide, by decide, by decide, by decide⟩

/-- C2 amended: for a departure with N remaining seats and M > N
concurrent one-seat `create` requests, under every interleaving of
their availability checks and conditional seat updates that runs all
requests to completion, exactly N commit and M − N are rejected — each
rejected one either by the availability check (`InsufficientCapacity`)
or by the conditional update matching no row (seat-update failure,
rolled back) — and the remaining seat count is never negative at any
point and ends at 0. -/
theorem claim_C2_amended (N M : Nat) (events : List Nat) (hMN : N < M)
    (hfin : AllFinished (concRun
        (ConcState.mk (N : Int) (List.replicate M ReqPhase.pending))
        events).reqs) :
    nSuccess (concRun (ConcState.mk (N : Int)
        (List.replicate M ReqPhase.pending)) events).reqs = N ∧
    nInsufficient (concRun (ConcState.mk (N : Int)
        (List.replicate M ReqPhase.pending)) events).reqs
      + nUpdateFailed (concRun (ConcState.mk (N : Int)
        (List.replicate M ReqPhase.pending)) events).reqs = M - N ∧
    (concRun (ConcState.mk (N : Int)
        (List.replicate M ReqPhase.pending)) events).seats = 0 ∧
    (∀ pre suf, events = pre ++ suf →
      0 ≤ (concRun (ConcState.mk (N : Int)
        (List.replicate M ReqPhase.pending)) pre).seats) := by
  have hinit : ConcInv N (ConcState.mk (N : Int)
      (List.replicate M ReqPhase.pending)) := by
    refine ⟨?_, ?_, ?_⟩
    · have h0 : nSuccess (List.replicate M ReqPhase.pending) = 0 :=
        countPhase_replicate M ReqPhase.success (by simp)
      simp [h0]
    · simp
    · intro hcon
      have h1 : nInsufficient (List.replicate M ReqPhase.pending) = 0 :=
        countPhase_replicate M ReqPhase.insufficientSeats (by simp)
      have h2 : nUpdateFailed (List.replicate M ReqPhase.pending) = 0 :=
        countPhase_replicate M ReqPhase.updateFailed (by simp)
      dsimp only at hcon
      omega
  have hrun := concRun_inv N _ events hinit
  obtain ⟨h1, h2, h3⟩ := hrun
  have hlen : (concRun (ConcState.mk (N : Int)
      (List.replicate M ReqPhase.pending)) events).reqs.length = M := by
    rw [concRun_length]
    simp
  have hpart := phase_partition _ hfin
  rw [hlen] at hpart
  have hSle : nSuccess (concRun (ConcState.mk (N : Int)
      (List.replicate M ReqPhase.pending)) events).reqs ≤ N := by omega
  have hfail : nInsufficient (concRun (ConcState.mk (N : Int)
      (List.replicate M ReqPhase.pending)) events).reqs
      + nUpdateFailed (concRun (ConcState.mk (N : Int)
      (List.replicate M ReqPhase.pending)) events).reqs ≠ 0 := by omega
  have hS := h3 hfail
  refine ⟨hS, by omega, by omega, ?_⟩
  intro pre suf hpre
  exact (concRun_inv N _ pre hinit).2.1

/-- Witness for C2 amended at N = 1, M = 2 with the interleaving of the
counterexample: one request succeeds and one is rejected. -/
theorem claim_C2_witness :
    nSuccess (concRun (ConcState.mk ((1 : Nat) : Int)
        (List.replicate 2 ReqPhase.pending)) [0, 1, 0, 1]).reqs = 1 ∧
    nInsufficient (concRun (ConcState.mk ((1 : Nat) : Int)
        (List.replicate 2 ReqPhase.pending)) [0, 1, 0, 1]).reqs
      + nUpdateFailed (concRun (ConcState.mk ((1 : Nat) : Int)
        (List.replicate 2 ReqPhase.pending)) [0, 1, 0, 1]).reqs = 1 := by
  have h := claim_C2_amended 1 2 [0, 1, 0, 1] (by decide) (by decide)
  exact ⟨h.1, h.2.1⟩
